import Mathlib

/-!
Verification of the insurance-lead import pipeline
(`src/automation/insurance_lead_import.py`).

Python strings that flow through the pipeline are modelled as byte
sequences (`List Nat`, each element `< 256`); the empty string is `[]`.
The `cryptography.fernet.Fernet` scheme used by
`HIPAACompliantEncryption` is modelled structurally: a token is
`version byte 0x80 ++ 8 timestamp bytes ++ 16 IV bytes ++
ciphertext ++ 32 HMAC bytes`, where the AES-128-CTR keystream and the
HMAC-SHA256 tag are modelled by fixed executable pseudorandom
functions (their internal structure is irrelevant to every claim; what
matters is that the keystream is invertible and the token embeds the
IV).  Fernet draws a fresh random IV and reads the clock on every
`encrypt` call, so the model's encryption function takes the
timestamp and IV drawn by that call as explicit arguments.
-/

/-- Big-endian-free byte serialisation: `natToBytes w n` is the `w`
little-endian base-256 digits of `n`. -/
def natToBytes : Nat → Nat → List Nat
  | 0, _ => []
  | w + 1, n => n % 256 :: natToBytes w (n / 256)

/-- Reconstruct a natural number from its base-256 digit list. -/
def bytesToNat : List Nat → Nat
  | [] => 0
  | b :: bs => b % 256 + 256 * bytesToNat bs

/-- Model of one byte of the AES-128-CTR keystream at position `i`
under `key` and the given IV (a fixed executable pseudorandom
function; its exact values are irrelevant). -/
def ksByte (key iv i : Nat) : Nat := (key + iv * 7919 + i * 101 + 1) % 256

/-- CTR-mode encryption of a byte list, starting at stream position `i`. -/
def ctrEnc (key iv : Nat) : Nat → List Nat → List Nat
  | _, [] => []
  | i, b :: bs => (b + ksByte key iv i) % 256 :: ctrEnc key iv (i + 1) bs

/-- CTR-mode decryption, inverse of `ctrEnc` on valid bytes. -/
def ctrDec (key iv : Nat) : Nat → List Nat → List Nat
  | _, [] => []
  | i, c :: cs => (c + 256 - ksByte key iv i) % 256 :: ctrDec key iv (i + 1) cs

/-- Model of the HMAC-SHA256 tag over the token body (a fixed
executable pseudorandom function of `key` and the message). -/
def hmacModel (key : Nat) (msg : List Nat) : List Nat :=
  natToBytes 32 (msg.foldl (fun a b => (a * 257 + b + key + 1) % 2 ^ 256) 1)

/-- Token body `0x80 ‖ timestamp ‖ IV ‖ AES-CTR ciphertext`. -/
def fernetBody (key ts iv : Nat) (data : List Nat) : List Nat :=
  128 :: (natToBytes 8 ts ++ (natToBytes 16 iv ++ ctrEnc key (iv % 256 ^ 16) 0 data))

/-- Model of `Fernet.encrypt` (called by
`HIPAACompliantEncryption.encrypt`, line 107): builds the token
`0x80 ‖ timestamp ‖ IV ‖ AES-CTR ciphertext ‖ HMAC`.  The real
library draws `iv` freshly at random and `ts` from the clock on each
call; here both are explicit arguments. -/
def fernetEncrypt (key ts iv : Nat) (data : List Nat) : List Nat :=
  fernetBody key ts iv data ++ hmacModel key (fernetBody key ts iv data)

/-- Model of `Fernet.decrypt` (called by
`HIPAACompliantEncryption.decrypt`, line 113): checks length, version
byte and HMAC, then inverts the CTR ciphertext with the IV embedded in
the token.  Raising `InvalidToken` is modelled by `Except.error`. -/
def fernetDecrypt (key : Nat) (token : List Nat) : Except String (List Nat) :=
  if token.length < 57 then .error "InvalidToken"
  else if token.take 1 ≠ [128] then .error "InvalidToken"
  else if token.drop (token.length - 32) ≠ hmacModel key (token.take (token.length - 32)) then
    .error "InvalidToken"
  else
    .ok (ctrDec key (bytesToNat ((token.drop 9).take 16)) 0
          ((token.drop 25).take (token.length - 57)))

/-- Valid byte strings: every element is a byte value. -/
def validBytes (x : List Nat) : Prop := ∀ b ∈ x, b < 256

instance : DecidablePred validBytes := fun x =>
  inferInstanceAs (Decidable (∀ b ∈ x, b < 256))

/-- Model of `HIPAACompliantEncryption.encrypt` (lines 103-107):
empty data is returned as the empty string without touching the
cipher; otherwise the Fernet token for the data is returned. -/
def hipaaEncrypt (key ts iv : Nat) (data : List Nat) : List Nat :=
  if data = [] then [] else fernetEncrypt key ts iv data

/-- Model of `HIPAACompliantEncryption.decrypt` (lines 109-113):
empty input is returned as the empty string; otherwise the Fernet
token is decrypted (`Except.error` models the `InvalidToken` raise). -/
def hipaaDecrypt (key : Nat) (encrypted : List Nat) : Except String (List Nat) :=
  if encrypted = [] then .ok [] else fernetDecrypt key encrypted

/-- Model of the `InsuranceLead` dataclass (lines 56-91).  Textual
values are byte strings (`List Nat`); `Optional[str]` fields are
`Option`.  The regulated (HIPAA-protected) fields are
`date_of_birth`, `household_income`, `health_conditions`, `phone`,
`email` (`get_hipaa_fields`, lines 83-91). -/
structure InsuranceLead where
  lead_id : String
  source : String
  first_name : String
  last_name : String
  email : List Nat
  phone : List Nat
  date_of_birth : Option (List Nat) := none
  zip_code : Option String := none
  state : Option String := none
  coverage_type : Option String := none
  household_income : Option (List Nat) := none
  health_conditions : Option (List Nat) := none
  current_coverage : Option Bool := none
  preferred_contact_time : Option String := none
  notes : Option String := none
  created_at : String
  imported_at : String
  consent_given : Bool := false
  tcpa_compliant : Bool := false
deriving DecidableEq, Repr

/-- Environment of one `process_leads` run: the Fernet key, the
stream of (timestamp, IV) pairs drawn by successive cipher calls, and
fault models for the two persistence sinks — `storeErr id = some e`
means the primary-store write for that lead raises `e`;
`archiveFail id = true` means the S3 `put_object` for that lead
raises (caught inside `_archive_to_s3` and logged as a warning). -/
structure RunEnv where
  key : Nat
  draws : Nat → Nat × Nat
  storeErr : String → Option String
  archiveFail : String → Bool

/-- One regulated required (`str`) field through the loop body of
`_encrypt_lead` (lines 302-306): a falsy (empty) value is left
untouched and consumes no cipher call; otherwise it is replaced by
the token of the `n`-th cipher call.  Returns the new value and the
next cipher-call index. -/
def encField (env : RunEnv) (n : Nat) (v : List Nat) : List Nat × Nat :=
  if v = [] then (v, n)
  else (hipaaEncrypt env.key (env.draws n).1 (env.draws n).2 v, n + 1)

/-- One regulated `Optional[str]` field through the same loop body:
`None` and the empty string are both falsy and left untouched. -/
def encFieldOpt (env : RunEnv) (n : Nat) : Option (List Nat) → Option (List Nat) × Nat
  | none => (none, n)
  | some v =>
      if v = [] then (some v, n)
      else (some (hipaaEncrypt env.key (env.draws n).1 (env.draws n).2 v), n + 1)

/-- Model of `LeadImporter._encrypt_lead` (lines 298-308): copies the
lead and replaces each truthy regulated field, in `get_hipaa_fields`
order (date_of_birth, household_income, health_conditions, phone,
email), by its ciphertext; `n` is the index of the next cipher call
(each call draws fresh randomness from the stream).  Returns the
protected lead and the updated call index. -/
def encryptLead (env : RunEnv) (n : Nat) (lead : InsuranceLead) : InsuranceLead × Nat :=
  let d := encFieldOpt env n lead.date_of_birth
  let i := encFieldOpt env d.2 lead.household_income
  let h := encFieldOpt env i.2 lead.health_conditions
  let p := encField env h.2 lead.phone
  let e := encField env p.2 lead.email
  ({ lead with
      date_of_birth := d.1, household_income := i.1, health_conditions := h.1,
      phone := p.1, email := e.1 }, e.2)

/-- Detail payload of an audit event: the three dict shapes produced
by `process_leads` (lines 258-293). -/
inductive AuditDetail where
  | rejectedReason (reason : String)
  | imported (source : String) (coverage : Option String) (encrypted : Bool)
  | failed (error : String)
deriving DecidableEq, Repr

/-- Model of one audit-log entry (`AuditLogger.log_event`, lines
127-141).  The wall-clock timestamp, acting user and best-effort IP
enrichment of the Python event are environmental metadata with no
bearing on any claim and are not modelled. -/
structure AuditEvent where
  event_type : String
  lead_id : String
  details : AuditDetail
deriving DecidableEq, Repr

/-- Model of `LeadImporter._store_lead` (lines 310-362): the SQL
`INSERT ... ON CONFLICT (lead_id) DO UPDATE SET imported_at =
EXCLUDED.imported_at` upsert into the `insurance_leads` table (one
row per `lead_id`, all dataclass columns).  On conflict only the
`imported_at` column is refreshed; every other column keeps its
stored value. -/
def storeLead (db : List InsuranceLead) (lead : InsuranceLead) : List InsuranceLead :=
  if db.any fun r => r.lead_id == lead.lead_id then
    db.map fun r =>
      if r.lead_id == lead.lead_id then { r with imported_at := lead.imported_at } else r
  else db ++ [lead]

/-- S3 object key used by `_archive_to_s3` (line 366). -/
def archiveKey (lead : InsuranceLead) : String :=
  "leads/" ++ lead.source ++ "/" ++ lead.created_at.take 10 ++ "/" ++ lead.lead_id ++ ".json"

/-- Model of `s3_client.put_object` (lines 369-374): overwrite the
object at the key if present, otherwise add it. -/
def s3Put (s3 : List (String × InsuranceLead)) (k : String) (v : InsuranceLead) :
    List (String × InsuranceLead) :=
  if s3.any fun o => o.1 == k then s3.map fun o => if o.1 == k then (k, v) else o
  else s3 ++ [(k, v)]

/-- Observable state threaded through a `process_leads` run: the
primary store, the S3 archive, the append-only audit log, the
warning lines logged by `_archive_to_s3` on archive failure, and the
number of cipher calls made so far (the position in the randomness
stream). -/
structure PipeState where
  db : List InsuranceLead
  s3 : List (String × InsuranceLead)
  audit : List AuditEvent
  warnings : List String
  cipherCalls : Nat
deriving DecidableEq, Repr

/-- Loop body of `LeadImporter.process_leads` (lines 253-293) for one
lead: consent gate first (on the original record), then encrypt,
primary store, archive, audit, returning this record's contribution
to `processed_count` and the new state.  A primary-store fault
raises, is caught by the per-record handler and audited as
`lead_import_failed`; an archive fault is caught inside
`_archive_to_s3` itself and only logs a warning. -/
def processOne (env : RunEnv) (st : PipeState) (lead : InsuranceLead) : Nat × PipeState :=
  if !lead.consent_given || !lead.tcpa_compliant then
    (0, { st with
            audit := st.audit ++
              [⟨"lead_rejected", lead.lead_id, .rejectedReason "missing_consent"⟩] })
  else
    let enc := encryptLead env st.cipherCalls lead
    match env.storeErr lead.lead_id with
    | some err =>
        (0, { st with
                cipherCalls := enc.2,
                audit := st.audit ++ [⟨"lead_import_failed", lead.lead_id, .failed err⟩] })
    | none =>
        (1, { st with
                db := storeLead st.db enc.1,
                s3 := if env.archiveFail lead.lead_id then st.s3
                      else s3Put st.s3 (archiveKey enc.1) enc.1,
                warnings := if env.archiveFail lead.lead_id then st.warnings ++ [lead.lead_id]
                            else st.warnings,
                audit := st.audit ++
                  [⟨"lead_imported", lead.lead_id, .imported lead.source lead.coverage_type true⟩],
                cipherCalls := enc.2 })

/-- Model of `LeadImporter.process_leads` (lines 248-296): fold the
per-record body over the batch, summing `processed_count`. -/
def processLeads (env : RunEnv) (st : PipeState) : List InsuranceLead → Nat × PipeState
  | [] => (0, st)
  | l :: ls =>
      let r := processOne env st l
      let rest := processLeads env r.2 ls
      (r.1 + rest.1, rest.2)

/-- Aggregate a run reports: line 295 logs
`processed_count/len(leads)` and line 296 returns `processed_count`;
the pair is the (processed, total) aggregate visible to the caller. -/
def processReport (env : RunEnv) (st : PipeState) (leads : List InsuranceLead) : Nat × Nat :=
  ((processLeads env st leads).1, leads.length)

/-- Model of key resolution at module load (line 51):
`os.getenv('HIPAA_ENCRYPTION_KEY', Fernet.generate_key())` yields the
environment value when the variable is set and otherwise the freshly
generated fallback key. -/
def resolveEncryptionKey (envKey : Option (List Nat)) (generatedKey : List Nat) : List Nat :=
  envKey.getD generatedKey

/-- Model of `Fernet.generate_key()`: 32 random bytes, url-safe
base64-encoded to 44 characters — always valid key material. -/
def fernetGenerateKey (seed : Nat) : List Nat := natToBytes 44 seed

/-- Validity check the `Fernet` constructor performs on key material,
modelled by its observable criterion (44 base64 characters decoding
to 32 bytes). -/
def fernetKeyValid (key : List Nat) : Bool := key.length == 44

/-- Model of `HIPAACompliantEncryption.__init__` (lines 97-101): the
`Fernet` constructor raises `ValueError` on invalid key material and
otherwise yields a usable cipher (represented by its numeric key). -/
def hipaaEncryptionInit (key : List Nat) : Except String Nat :=
  if fernetKeyValid key then .ok (bytesToNat key) else .error "ValueError"

/-- Initialisation path of a run: `LeadImporter.__init__` (line 155)
constructs `HIPAACompliantEncryption()` with the module-level
`ENCRYPTION_KEY` (line 51). -/
def importerInit (envKey : Option (List Nat)) (generatedKey : List Nat) : Except String Nat :=
  hipaaEncryptionInit (resolveEncryptionKey envKey generatedKey)

/-- Module-load-time constants of the `InsuranceLead` class body
(lines 74-75): the two `datetime.now(timezone.utc).isoformat()`
default expressions are evaluated once, when the class statement runs
at import time, not once per instance. -/
structure ClassDefaults where
  created_at_value : String
  imported_at_value : String

/-- Model of constructing `InsuranceLead(...)` without passing
`created_at`/`imported_at` (as `import_from_csv` does, lines
198-212): the instance receives the class-level default values that
were computed at module load; no clock is read at construction
time. -/
def mkLeadDefaults (cd : ClassDefaults) (lead_id source first_name last_name : String)
    (email phone : List Nat) (consent tcpa : Bool) : InsuranceLead :=
  { lead_id := lead_id, source := source, first_name := first_name, last_name := last_name,
    email := email, phone := phone,
    created_at := cd.created_at_value, imported_at := cd.imported_at_value,
    consent_given := consent, tcpa_compliant := tcpa }

/-- A regulated required field after protection: either the original
was empty and the value is unchanged, or the value is the ciphertext
of some cipher call on the original. -/
def protectedField (env : RunEnv) (orig result : List Nat) : Prop :=
  (orig = [] ∧ result = orig) ∨
  (orig ≠ [] ∧ ∃ n, result = hipaaEncrypt env.key (env.draws n).1 (env.draws n).2 orig)

/-- A regulated optional field after protection: `None` stays
`None`, an empty string stays unchanged, and a non-empty value is the
ciphertext of some cipher call. -/
def protectedFieldOpt (env : RunEnv) (orig result : Option (List Nat)) : Prop :=
  (orig = none ∧ result = none) ∨
  (∃ v, orig = some v ∧ v = [] ∧ result = orig) ∨
  (∃ v, orig = some v ∧ v ≠ [] ∧
    ∃ n, result = some (hipaaEncrypt env.key (env.draws n).1 (env.draws n).2 v))

/-- Round-trip property of one persisted regulated field value
against its plaintext: for non-empty valid plaintext the stored value
is distinct from it and decrypts back to it under the run's key. -/
def fieldRoundTrips (env : RunEnv) (orig result : List Nat) : Prop :=
  orig ≠ [] → validBytes orig →
    result ≠ orig ∧ hipaaDecrypt env.key result = Except.ok orig

/-- Round-trip property for an optional regulated field. -/
def fieldRoundTripsOpt (env : RunEnv) (orig result : Option (List Nat)) : Prop :=
  ∀ v, orig = some v → v ≠ [] → validBytes v →
    ∃ r, result = some r ∧ r ≠ v ∧ hipaaDecrypt env.key r = Except.ok v

/-- Concrete run environment for witnesses: every sink healthy. -/
def testEnv : RunEnv :=
  { key := 7, draws := fun n => (n, n), storeErr := fun _ => none, archiveFail := fun _ => false }

/-- Environment whose primary store raises for lead `L1` only. -/
def failOneEnv : RunEnv :=
  { testEnv with storeErr := fun id => if id == "L1" then some "connection refused" else none }

/-- Environment whose archive sink raises for every lead. -/
def archFailEnv : RunEnv := { testEnv with archiveFail := fun _ => true }

/-- Empty initial pipeline state. -/
def emptyState : PipeState := { db := [], s3 := [], audit := [], warnings := [], cipherCalls := 0 }

/-- A fully consented concrete lead. -/
def okLead : InsuranceLead :=
  { lead_id := "L1", source := "csv", first_name := "Ann", last_name := "Lee",
    email := [104, 105], phone := [49, 50],
    created_at := "2025-11-14T00:00:00+00:00", imported_at := "2025-11-14T00:00:00+00:00",
    consent_given := true, tcpa_compliant := true }

/-- A second consented lead with a distinct id. -/
def okLead2 : InsuranceLead := { okLead with lead_id := "L3" }

/-- A lead lacking marketing consent. -/
def noConsentLead : InsuranceLead := { okLead with lead_id := "L2", consent_given := false }

/-- The same lead as `okLead` re-imported later with a fresh
`imported_at`. -/
def reimportLead : InsuranceLead := { okLead with imported_at := "2025-11-15T00:00:00+00:00" }

theorem length_natToBytes (w n : Nat) : (natToBytes w n).length = w := by
  induction w generalizing n with
  | zero => rfl
  | succ w ih => simp [natToBytes, ih]

theorem bytesToNat_natToBytes (w n : Nat) :
    bytesToNat (natToBytes w n) = n % 256 ^ w := by
  induction w generalizing n with
  | zero => simp [natToBytes, bytesToNat, Nat.mod_one]
  | succ w ih =>
      simp only [natToBytes, bytesToNat, ih]
      rw [pow_succ', Nat.mod_mul]
      omega

theorem length_ctrEnc (key iv : Nat) :
    ∀ i x, (ctrEnc key iv i x).length = x.length := by
  intro i x
  induction x generalizing i with
  | nil => rfl
  | cons b bs ih => simp [ctrEnc, ih]

theorem ctrDec_ctrEnc (key iv : Nat) :
    ∀ i x, (∀ b ∈ x, b < 256) → ctrDec key iv i (ctrEnc key iv i x) = x := by
  intro i x
  induction x generalizing i with
  | nil => intro _; rfl
  | cons b bs ih =>
      intro h
      have hb : b < 256 := h b (List.mem_cons_self b bs)
      have hk : ksByte key iv i < 256 := Nat.mod_lt _ (by norm_num)
      simp only [ctrEnc, ctrDec, List.cons.injEq]
      refine ⟨by omega, ih (i + 1) fun c hc => h c (List.mem_cons_of_mem _ hc)⟩

theorem length_hmacModel (key : Nat) (m : List Nat) : (hmacModel key m).length = 32 :=
  length_natToBytes _ _

theorem length_fernetBody (key ts iv : Nat) (x : List Nat) :
    (fernetBody key ts iv x).length = 25 + x.length := by
  simp [fernetBody, length_natToBytes, length_ctrEnc]
  omega

theorem length_fernetEncrypt (key ts iv : Nat) (x : List Nat) :
    (fernetEncrypt key ts iv x).length = 57 + x.length := by
  simp [fernetEncrypt, length_fernetBody, length_hmacModel]
  omega

/-- Extracting bytes 9..24 of a well-shaped token yields the IV field. -/
theorem token_iv_bytes (ts8 iv16 rest : List Nat)
    (hts : ts8.length = 8) (hiv : iv16.length = 16) :
    ((128 :: (ts8 ++ (iv16 ++ rest))).drop 9).take 16 = iv16 := by
  show ((ts8 ++ (iv16 ++ rest)).drop 8).take 16 = iv16
  rw [List.drop_left' hts]
  exact List.take_left' hiv

theorem fernetEncrypt_iv_bytes (key ts iv : Nat) (x : List Nat) :
    ((fernetEncrypt key ts iv x).drop 9).take 16 = natToBytes 16 iv := by
  have h : fernetEncrypt key ts iv x
      = 128 :: (natToBytes 8 ts ++ (natToBytes 16 iv ++
          (ctrEnc key (iv % 256 ^ 16) 0 x ++ hmacModel key (fernetBody key ts iv x)))) := by
    simp [fernetEncrypt, fernetBody, List.append_assoc]
  rw [h]
  exact token_iv_bytes _ _ _ (length_natToBytes _ _) (length_natToBytes _ _)

/-- Decrypting a well-shaped token with a matching tag recovers the
CTR plaintext under the embedded IV. -/
theorem fernetDecrypt_token (key : Nat) (ts8 iv16 ct mac : List Nat)
    (hts : ts8.length = 8) (hiv : iv16.length = 16) (hmaclen : mac.length = 32)
    (hmacok : hmacModel key (128 :: (ts8 ++ (iv16 ++ ct))) = mac) :
    fernetDecrypt key ((128 :: (ts8 ++ (iv16 ++ ct))) ++ mac)
      = Except.ok (ctrDec key (bytesToNat iv16) 0 ct) := by
  have hbodylen : (128 :: (ts8 ++ (iv16 ++ ct))).length = 25 + ct.length := by
    simp [hts, hiv]
    omega
  have htoklen : ((128 :: (ts8 ++ (iv16 ++ ct))) ++ mac).length = 57 + ct.length := by
    simp [hts, hiv, hmaclen]
    omega
  have h32 : ((128 :: (ts8 ++ (iv16 ++ ct))) ++ mac).length - 32
      = (128 :: (ts8 ++ (iv16 ++ ct))).length := by omega
  have hdropmac : ((128 :: (ts8 ++ (iv16 ++ ct))) ++ mac).drop
      (((128 :: (ts8 ++ (iv16 ++ ct))) ++ mac).length - 32) = mac := by
    rw [h32]
    exact List.drop_left _ _
  have htakebody : ((128 :: (ts8 ++ (iv16 ++ ct))) ++ mac).take
      (((128 :: (ts8 ++ (iv16 ++ ct))) ++ mac).length - 32)
      = 128 :: (ts8 ++ (iv16 ++ ct)) := by
    rw [h32]
    exact List.take_left _ _
  have htok : (128 :: (ts8 ++ (iv16 ++ ct))) ++ mac
      = 128 :: (ts8 ++ (iv16 ++ (ct ++ mac))) := by
    simp [List.append_assoc]
  have hdrop9 : ((128 :: (ts8 ++ (iv16 ++ ct))) ++ mac).drop 9 = iv16 ++ (ct ++ mac) := by
    rw [htok]
    show (ts8 ++ (iv16 ++ (ct ++ mac))).drop 8 = iv16 ++ (ct ++ mac)
    exact List.drop_left' hts
  have hiv16 : (((128 :: (ts8 ++ (iv16 ++ ct))) ++ mac).drop 9).take 16 = iv16 := by
    rw [hdrop9]
    exact List.take_left' hiv
  have hdrop25 : ((128 :: (ts8 ++ (iv16 ++ ct))) ++ mac).drop 25 = ct ++ mac := by
    rw [show (25 : Nat) = 9 + 16 from rfl, ← List.drop_drop, hdrop9]
    exact List.drop_left' hiv
  have hct : (((128 :: (ts8 ++ (iv16 ++ ct))) ++ mac).drop 25).take
      (((128 :: (ts8 ++ (iv16 ++ ct))) ++ mac).length - 57) = ct := by
    rw [hdrop25, htoklen, show 57 + ct.length - 57 = ct.length from by omega]
    exact List.take_left _ _
  unfold fernetDecrypt
  rw [if_neg (by rw [htoklen]; omega),
      if_neg (by rw [htok]; simp),
      if_neg (by rw [hdropmac, htakebody, hmacok]; simp),
      hiv16, hct]

/-- Round trip at the Fernet level: decrypting an encryption with the
same key recovers the plaintext bytes exactly. -/
theorem fernetDecrypt_fernetEncrypt (key ts iv : Nat) (x : List Nat)
    (hx : ∀ b ∈ x, b < 256) :
    fernetDecrypt key (fernetEncrypt key ts iv x) = Except.ok x := by
  have h : fernetEncrypt key ts iv x
      = (128 :: (natToBytes 8 ts ++ (natToBytes 16 iv ++ ctrEnc key (iv % 256 ^ 16) 0 x)))
        ++ hmacModel key (128 :: (natToBytes 8 ts ++ (natToBytes 16 iv ++ ctrEnc key (iv % 256 ^ 16) 0 x))) := by
    simp [fernetEncrypt, fernetBody]
  rw [h, fernetDecrypt_token key _ _ _ _ (length_natToBytes _ _) (length_natToBytes _ _)
        (length_hmacModel _ _) rfl,
      bytesToNat_natToBytes, ctrDec_ctrEnc key _ 0 x hx]

/-- A Fernet token is never equal to its own plaintext: it is 57
bytes longer. -/
theorem fernetEncrypt_ne_data (key ts iv : Nat) (x : List Nat) :
    fernetEncrypt key ts iv x ≠ x := by
  intro h
  have hl := congrArg List.length h
  rw [length_fernetEncrypt] at hl
  omega

/-- Tokens produced under IVs that differ modulo `256 ^ 16` are
distinct, whatever the timestamps: the IV is embedded in the token. -/
theorem fernetEncrypt_ne_of_iv_ne (key tsa tsb iva ivb : Nat) (x : List Nat)
    (h : iva % 256 ^ 16 ≠ ivb % 256 ^ 16) :
    fernetEncrypt key tsa iva x ≠ fernetEncrypt key tsb ivb x := by
  intro he
  apply h
  have hbytes := congrArg (fun l => bytesToNat ((List.drop 9 l).take 16)) he
  simp only [fernetEncrypt_iv_bytes, bytesToNat_natToBytes] at hbytes
  exact hbytes

theorem hipaaEncrypt_ne_data (key ts iv : Nat) (x : List Nat) (hx : x ≠ []) :
    hipaaEncrypt key ts iv x ≠ x := by
  rw [hipaaEncrypt, if_neg hx]
  exact fernetEncrypt_ne_data key ts iv x

theorem hipaaEncrypt_nonempty (key ts iv : Nat) (x : List Nat) (hx : x ≠ []) :
    hipaaEncrypt key ts iv x ≠ [] := by
  rw [hipaaEncrypt, if_neg hx]
  intro h
  have hl := congrArg List.length h
  rw [length_fernetEncrypt] at hl
  simp at hl

theorem hipaaDecrypt_hipaaEncrypt (key ts iv : Nat) (x : List Nat)
    (hx : x ≠ []) (hv : validBytes x) :
    hipaaDecrypt key (hipaaEncrypt key ts iv x) = Except.ok x := by
  rw [hipaaEncrypt, if_neg hx, hipaaDecrypt,
      if_neg (fun h => by
        have hl := congrArg List.length h
        rw [length_fernetEncrypt] at hl
        simp at hl)]
  exact fernetDecrypt_fernetEncrypt key ts iv x hv

theorem protectedField_encField (env : RunEnv) (n : Nat) (v : List Nat) :
    protectedField env v (encField env n v).1 := by
  by_cases h : v = []
  · left
    simp [encField, h]
  · right
    exact ⟨h, n, by simp [encField, h]⟩

theorem protectedFieldOpt_encFieldOpt (env : RunEnv) (n : Nat) (v : Option (List Nat)) :
    protectedFieldOpt env v (encFieldOpt env n v).1 := by
  match v with
  | none =>
      left
      simp [encFieldOpt]
  | some w =>
      by_cases h : w = []
      · right; left
        exact ⟨w, rfl, h, by simp [encFieldOpt, h]⟩
      · right; right
        exact ⟨w, rfl, h, n, by simp [encFieldOpt, h]⟩

theorem fieldRoundTrips_encField (env : RunEnv) (n : Nat) (v : List Nat) :
    fieldRoundTrips env v (encField env n v).1 := by
  intro hne hv
  rw [encField, if_neg hne]
  exact ⟨hipaaEncrypt_ne_data _ _ _ _ hne, hipaaDecrypt_hipaaEncrypt _ _ _ _ hne hv⟩

theorem fieldRoundTripsOpt_encFieldOpt (env : RunEnv) (n : Nat) (v : Option (List Nat)) :
    fieldRoundTripsOpt env v (encFieldOpt env n v).1 := by
  intro w hw hne hv
  subst hw
  rw [encFieldOpt]
  simp only [if_neg hne]
  exact ⟨_, rfl, hipaaEncrypt_ne_data _ _ _ _ hne, hipaaDecrypt_hipaaEncrypt _ _ _ _ hne hv⟩

/-- C2: for every lead, the value `_encrypt_lead` produces has each
of the five regulated fields either empty/absent (unchanged) or equal
to ciphertext produced by the encryptor; and for an admitted lead
whose store write does not raise, exactly that value is what
`_store_lead` and `_archive_to_s3` receive. -/
theorem field_protector_regulated_fields (env : RunEnv) (st : PipeState) (lead : InsuranceLead) :
    protectedFieldOpt env lead.date_of_birth (encryptLead env st.cipherCalls lead).1.date_of_birth ∧
    protectedFieldOpt env lead.household_income (encryptLead env st.cipherCalls lead).1.household_income ∧
    protectedFieldOpt env lead.health_conditions (encryptLead env st.cipherCalls lead).1.health_conditions ∧
    protectedField env lead.phone (encryptLead env st.cipherCalls lead).1.phone ∧
    protectedField env lead.email (encryptLead env st.cipherCalls lead).1.email ∧
    (lead.consent_given = true → lead.tcpa_compliant = true →
      env.storeErr lead.lead_id = none → env.archiveFail lead.lead_id = false →
      (processOne env st lead).2.db = storeLead st.db (encryptLead env st.cipherCalls lead).1 ∧
      (processOne env st lead).2.s3
        = s3Put st.s3 (archiveKey (encryptLead env st.cipherCalls lead).1)
            (encryptLead env st.cipherCalls lead).1) := by
  refine ⟨protectedFieldOpt_encFieldOpt _ _ _, protectedFieldOpt_encFieldOpt _ _ _,
    protectedFieldOpt_encFieldOpt _ _ _, protectedField_encField _ _ _,
    protectedField_encField _ _ _, ?_⟩
  intro hc ht hs ha
  simp [processOne, hc, ht, hs, ha]

/-- C2 witness: concrete consented lead through the protector and the
success branch of the orchestrator. -/
theorem field_protector_regulated_fields_witness :
    protectedField testEnv okLead.email (encryptLead testEnv emptyState.cipherCalls okLead).1.email ∧
    (processOne testEnv emptyState okLead).2.db
      = storeLead emptyState.db (encryptLead testEnv emptyState.cipherCalls okLead).1 := by
  have h := field_protector_regulated_fields testEnv emptyState okLead
  exact ⟨h.2.2.2.2.1, (h.2.2.2.2.2 rfl rfl rfl rfl).1⟩

/-- C3: for an admitted lead whose store write does not raise, the
persisted row is exactly the protected lead, and every non-empty
regulated field of that row is ciphertext distinct from its plaintext
that decrypts, under the run's key, to exactly the original
plaintext. -/
theorem persisted_regulated_roundtrip (env : RunEnv) (st : PipeState) (lead : InsuranceLead)
    (hc : lead.consent_given = true) (ht : lead.tcpa_compliant = true)
    (hs : env.storeErr lead.lead_id = none) :
    (processOne env st lead).2.db = storeLead st.db (encryptLead env st.cipherCalls lead).1 ∧
    fieldRoundTripsOpt env lead.date_of_birth (encryptLead env st.cipherCalls lead).1.date_of_birth ∧
    fieldRoundTripsOpt env lead.household_income (encryptLead env st.cipherCalls lead).1.household_income ∧
    fieldRoundTripsOpt env lead.health_conditions (encryptLead env st.cipherCalls lead).1.health_conditions ∧
    fieldRoundTrips env lead.phone (encryptLead env st.cipherCalls lead).1.phone ∧
    fieldRoundTrips env lead.email (encryptLead env st.cipherCalls lead).1.email := by
  refine ⟨?_, fieldRoundTripsOpt_encFieldOpt _ _ _, fieldRoundTripsOpt_encFieldOpt _ _ _,
    fieldRoundTripsOpt_encFieldOpt _ _ _, fieldRoundTrips_encField _ _ _,
    fieldRoundTrips_encField _ _ _⟩
  cases hae : env.archiveFail lead.lead_id <;> simp [processOne, hc, ht, hs, hae]

/-- C3 witness: the concrete consented lead's email round-trips. -/
theorem persisted_regulated_roundtrip_witness :
    (processOne testEnv emptyState okLead).2.db
      = storeLead emptyState.db (encryptLead testEnv emptyState.cipherCalls okLead).1 ∧
    ((encryptLead testEnv emptyState.cipherCalls okLead).1.email ≠ okLead.email ∧
      hipaaDecrypt testEnv.key (encryptLead testEnv emptyState.cipherCalls okLead).1.email
        = Except.ok okLead.email) := by
  have h := persisted_regulated_roundtrip testEnv emptyState okLead rfl rfl rfl
  exact ⟨h.1, h.2.2.2.2.2 (by decide) (by decide)⟩

/-- C1: the consent gate admits a record iff both compliance flags
are true.  A record failing the check leaves the primary store, the
archive and the cipher-call counter untouched (it is never passed to
`_encrypt_lead`, `_store_lead` or `_archive_to_s3`) and appends
exactly one `lead_rejected` audit entry whose detail gives missing
consent as the reason; an admitted record appends exactly one audit
entry, which is never a rejection. -/
theorem consent_gate_admits_iff (env : RunEnv) (st : PipeState) (lead : InsuranceLead) :
    ((lead.consent_given = false ∨ lead.tcpa_compliant = false) →
      processOne env st lead =
        (0, { st with audit := st.audit ++
                [⟨"lead_rejected", lead.lead_id, AuditDetail.rejectedReason "missing_consent"⟩] })) ∧
    (lead.consent_given = true → lead.tcpa_compliant = true →
      ∃ ev : AuditEvent, (processOne env st lead).2.audit = st.audit ++ [ev] ∧
        ev.event_type ≠ "lead_rejected") := by
  constructor
  · intro h
    rcases h with h | h <;> simp [processOne, h]
  · intro hc ht
    rcases hs : env.storeErr lead.lead_id with _ | err
    · exact ⟨⟨"lead_imported", lead.lead_id, .imported lead.source lead.coverage_type true⟩,
        by simp [processOne, hc, ht, hs], by simp⟩
    · exact ⟨⟨"lead_import_failed", lead.lead_id, .failed err⟩,
        by simp [processOne, hc, ht, hs], by simp⟩

/-- C1 witness: a concrete record without consent is rejected with
one audit entry and no state change; a concrete consented record is
admitted with a non-rejection entry. -/
theorem consent_gate_admits_iff_witness :
    processOne testEnv emptyState noConsentLead =
      (0, { emptyState with audit :=
              [⟨"lead_rejected", "L2", AuditDetail.rejectedReason "missing_consent"⟩] }) ∧
    ∃ ev : AuditEvent, (processOne testEnv emptyState okLead).2.audit = [ev] ∧
      ev.event_type ≠ "lead_rejected" := by
  constructor
  · have h := (consent_gate_admits_iff testEnv emptyState noConsentLead).1 (Or.inl rfl)
    simpa [emptyState] using h
  · have h := (consent_gate_admits_iff testEnv emptyState okLead).2 rfl rfl
    simpa [emptyState] using h

/-- C4 counterexample: with `HIPAA_ENCRYPTION_KEY` absent from the
environment, initialisation does not abort — line 51 silently falls
back to a freshly generated `Fernet` key and `LeadImporter` comes up
successfully, refuting the claim that a missing key is fatal for the
run. -/
theorem missing_key_init_succeeds_cex :
    importerInit none (fernetGenerateKey 0) = Except.ok 0 := by rfl

/-- C4 amended: when the environment variable is absent the run does
not fail — the generated fallback key is used and initialisation
succeeds; `HIPAACompliantEncryption.__init__` raises only when the
configured key material itself is invalid. -/
theorem missing_key_fallback_generated (seed : Nat) (k : List Nat) :
    importerInit none (fernetGenerateKey seed)
      = Except.ok (bytesToNat (fernetGenerateKey seed)) ∧
    (fernetKeyValid k = false → hipaaEncryptionInit k = Except.error "ValueError") := by
  constructor
  · simp [importerInit, resolveEncryptionKey, hipaaEncryptionInit, fernetKeyValid,
      fernetGenerateKey, length_natToBytes]
  · intro h
    simp [hipaaEncryptionInit, h]

/-- C4 amended witness: fallback key from seed 5 initialises; the
empty byte string is rejected as key material. -/
theorem missing_key_fallback_generated_witness :
    importerInit none (fernetGenerateKey 5)
      = Except.ok (bytesToNat (fernetGenerateKey 5)) ∧
    hipaaEncryptionInit [] = Except.error "ValueError" := by
  have h := missing_key_fallback_generated 5 []
  exact ⟨h.1, h.2 (by decide)⟩

/-- C5 counterexample: two cipher calls on the same plaintext under
the same key draw distinct IVs (here the first two draws of the
randomness stream) and produce distinct ciphertexts, refuting the
claim that `HIPAACompliantEncryption.encrypt` is deterministic across
calls: `Fernet.encrypt` embeds a fresh random IV in every token. -/
theorem fernet_encrypt_nondeterministic_cex :
    fernetEncrypt 7 0 0 [104, 105] ≠ fernetEncrypt 7 0 1 [104, 105] := by decide

/-- C5 amended: encryption is deterministic only given the randomness
of the call — it is a pure function of key, timestamp, IV and
plaintext — while two calls whose drawn IVs differ produce distinct
ciphertexts; all of them decrypt back to the same plaintext under the
same key. -/
theorem fernet_encrypt_deterministic_given_draws (key tsa tsb iva ivb : Nat) (x : List Nat)
    (hiv : iva % 256 ^ 16 ≠ ivb % 256 ^ 16) (hx : x ≠ []) (hv : validBytes x) :
    hipaaEncrypt key tsa iva x ≠ hipaaEncrypt key tsb ivb x ∧
    hipaaDecrypt key (hipaaEncrypt key tsa iva x) = Except.ok x ∧
    hipaaDecrypt key (hipaaEncrypt key tsb ivb x) = Except.ok x := by
  refine ⟨?_, hipaaDecrypt_hipaaEncrypt key tsa iva x hx hv,
    hipaaDecrypt_hipaaEncrypt key tsb ivb x hx hv⟩
  rw [hipaaEncrypt, if_neg hx, hipaaEncrypt, if_neg hx]
  exact fernetEncrypt_ne_of_iv_ne key tsa tsb iva ivb x hiv

/-- C5 amended witness: concrete key, draws and plaintext. -/
theorem fernet_encrypt_deterministic_given_draws_witness :
    hipaaEncrypt 7 0 0 [104, 105] ≠ hipaaEncrypt 7 0 1 [104, 105] ∧
    hipaaDecrypt 7 (hipaaEncrypt 7 0 0 [104, 105]) = Except.ok [104, 105] ∧
    hipaaDecrypt 7 (hipaaEncrypt 7 0 1 [104, 105]) = Except.ok [104, 105] :=
  fernet_encrypt_deterministic_given_draws 7 0 0 0 1 [104, 105]
    (by decide) (by decide) (by decide)

theorem encryptLead_archiveFail_irrel (env : RunEnv) (f : String → Bool) (n : Nat)
    (lead : InsuranceLead) :
    encryptLead { env with archiveFail := f } n lead = encryptLead env n lead := rfl

/-- C6: upserting a lead whose `lead_id` is already stored leaves
exactly one row for that id; the row keeps every column of the first
write except `imported_at`, which takes the second call's value. -/
theorem store_lead_upsert_idempotent (db : List InsuranceLead) (l1 l2 : InsuranceLead)
    (hid : l1.lead_id = l2.lead_id) (hdb : ∀ r ∈ db, r.lead_id ≠ l2.lead_id) :
    storeLead (storeLead db l1) l2 = db ++ [{ l1 with imported_at := l2.imported_at }] ∧
    ((storeLead (storeLead db l1) l2).filter fun r => r.lead_id == l2.lead_id).length = 1 := by
  have hany1 : ¬(db.any fun r => r.lead_id == l1.lead_id) = true := by
    rw [List.any_eq_true]
    rintro ⟨r, hr, hbeq⟩
    exact hdb r hr ((beq_iff_eq.mp hbeq).trans hid)
  have h1 : storeLead db l1 = db ++ [l1] := by
    rw [storeLead, if_neg hany1]
  have hany2 : ((db ++ [l1]).any fun r => r.lead_id == l2.lead_id) = true := by
    rw [List.any_eq_true]
    exact ⟨l1, by simp, beq_iff_eq.mpr hid⟩
  have hmap : (db.map fun r =>
      if r.lead_id == l2.lead_id then { r with imported_at := l2.imported_at } else r) = db := by
    conv_rhs => rw [← List.map_id db]
    apply List.map_congr_left
    intro r hr
    rw [if_neg]
    · rfl
    · simp [hdb r hr]
  have h2 : storeLead (storeLead db l1) l2 = db ++ [{ l1 with imported_at := l2.imported_at }] := by
    rw [h1, storeLead, if_pos hany2, List.map_append, hmap]
    simp [hid]
  refine ⟨h2, ?_⟩
  rw [h2, List.filter_append]
  have e1 : (db.filter fun r => r.lead_id == l2.lead_id) = [] := by
    rw [List.filter_eq_nil_iff]
    intro r hr
    simp [hdb r hr]
  simp [e1, hid]

/-- C6 witness: re-importing the concrete lead with a fresh timestamp
leaves one row whose only changed column is `imported_at`. -/
theorem store_lead_upsert_idempotent_witness :
    storeLead (storeLead [] okLead) reimportLead
      = [{ okLead with imported_at := "2025-11-15T00:00:00+00:00" }] ∧
    ((storeLead (storeLead [] okLead) reimportLead).filter
        fun r => r.lead_id == reimportLead.lead_id).length = 1 := by
  have h := store_lead_upsert_idempotent [] okLead reimportLead rfl (by simp)
  simpa using h

/-- C7: a primary-store failure on one record is isolated: the record
contributes nothing to the count, appends exactly one
`lead_import_failed` audit entry carrying the error detail, leaves
the stores untouched, and the batch continues with the remaining
records; the run still reports the (processed, total) aggregate. -/
theorem store_failure_record_isolated (env : RunEnv) (st : PipeState) (bad : InsuranceLead)
    (rest : List InsuranceLead) (err : String)
    (hc : bad.consent_given = true) (ht : bad.tcpa_compliant = true)
    (hs : env.storeErr bad.lead_id = some err) :
    processLeads env st (bad :: rest)
      = processLeads env
          { st with cipherCalls := (encryptLead env st.cipherCalls bad).2,
                    audit := st.audit ++ [⟨"lead_import_failed", bad.lead_id, .failed err⟩] }
          rest ∧
    processReport env st (bad :: rest)
      = ((processLeads env
            { st with cipherCalls := (encryptLead env st.cipherCalls bad).2,
                      audit := st.audit ++ [⟨"lead_import_failed", bad.lead_id, .failed err⟩] }
            rest).1, rest.length + 1) := by
  have hone : processOne env st bad
      = (0, { st with cipherCalls := (encryptLead env st.cipherCalls bad).2,
                      audit := st.audit ++ [⟨"lead_import_failed", bad.lead_id, .failed err⟩] }) := by
    simp [processOne, hc, ht, hs]
  constructor
  · simp [processLeads, hone]
  · simp [processReport, processLeads, hone]

/-- C7 witness: primary store unreachable for `L1` in a batch of two
consented leads gives aggregate 1 of 2. -/
theorem store_failure_record_isolated_witness :
    processReport failOneEnv emptyState [okLead, okLead2] = (1, 2) := by
  have h := store_failure_record_isolated failOneEnv emptyState okLead [okLead2]
      "connection refused" rfl rfl rfl
  rw [h.2]
  rfl

/-- C8: for an admitted record whose primary-store write succeeds, an
archive failure does not change the outcome: the record is still
stored and counted, still gets its `lead_imported` audit entry, and
the failure surfaces only as a warning line; count, audit entry and
stored row are identical whatever the archive outcome. -/
theorem archive_failure_nonfatal (env : RunEnv) (st : PipeState) (lead : InsuranceLead)
    (hc : lead.consent_given = true) (ht : lead.tcpa_compliant = true)
    (hs : env.storeErr lead.lead_id = none) (ha : env.archiveFail lead.lead_id = true) :
    processOne env st lead
      = (1, { st with
                db := storeLead st.db (encryptLead env st.cipherCalls lead).1,
                warnings := st.warnings ++ [lead.lead_id],
                audit := st.audit ++
                  [⟨"lead_imported", lead.lead_id, .imported lead.source lead.coverage_type true⟩],
                cipherCalls := (encryptLead env st.cipherCalls lead).2 }) ∧
    ∀ b : Bool,
      (processOne { env with archiveFail := fun _ => b } st lead).1 = 1 ∧
      (processOne { env with archiveFail := fun _ => b } st lead).2.audit
        = st.audit ++
            [⟨"lead_imported", lead.lead_id, .imported lead.source lead.coverage_type true⟩] ∧
      (processOne { env with archiveFail := fun _ => b } st lead).2.db
        = storeLead st.db (encryptLead env st.cipherCalls lead).1 := by
  constructor
  · simp [processOne, hc, ht, hs, ha]
  · intro b
    cases b <;>
      simp [processOne, hc, ht, hs, encryptLead_archiveFail_irrel]

/-- C8 witness: archive sink down for the concrete consented lead —
still counted and audited as imported, with one warning line and an
empty archive. -/
theorem archive_failure_nonfatal_witness :
    (processOne archFailEnv emptyState okLead).1 = 1 ∧
    (processOne archFailEnv emptyState okLead).2.warnings = ["L1"] ∧
    (processOne archFailEnv emptyState okLead).2.s3 = [] ∧
    (processOne archFailEnv emptyState okLead).2.audit
      = [⟨"lead_imported", "L1", .imported "csv" none true⟩] := by
  have h := archive_failure_nonfatal archFailEnv emptyState okLead rfl rfl rfl rfl
  rw [h.1]
  exact ⟨rfl, rfl, rfl, rfl⟩

/-- C9: the `created_at` and `imported_at` dataclass defaults are
evaluated once at class-definition time, so any two leads constructed
without explicit timestamps receive the same `created_at` and the
same `imported_at` — the module-load values — regardless of when in
the run they are constructed. -/
theorem lead_timestamp_defaults_class_level (cd : ClassDefaults)
    (id1 id2 s1 s2 f1 f2 g1 g2 : String) (e1 e2 p1 p2 : List Nat) (b1 b2 u1 u2 : Bool) :
    (mkLeadDefaults cd id1 s1 f1 g1 e1 p1 b1 u1).created_at
      = (mkLeadDefaults cd id2 s2 f2 g2 e2 p2 b2 u2).created_at ∧
    (mkLeadDefaults cd id1 s1 f1 g1 e1 p1 b1 u1).imported_at
      = (mkLeadDefaults cd id2 s2 f2 g2 e2 p2 b2 u2).imported_at ∧
    (mkLeadDefaults cd id1 s1 f1 g1 e1 p1 b1 u1).created_at = cd.created_at_value ∧
    (mkLeadDefaults cd id1 s1 f1 g1 e1 p1 b1 u1).imported_at = cd.imported_at_value :=
  ⟨rfl, rfl, rfl, rfl⟩

theorem processOne_count (env : RunEnv) (st : PipeState) (l : InsuranceLead) :
    (processOne env st l).1
      = if l.consent_given && l.tcpa_compliant && (env.storeErr l.lead_id).isNone
        then 1 else 0 := by
  cases hc : l.consent_given <;> cases ht : l.tcpa_compliant <;>
    simp [processOne, hc, ht]
  rcases hs : env.storeErr l.lead_id with _ | e <;> simp [hs]

theorem processOne_audit (env : RunEnv) (st : PipeState) (l : InsuranceLead) :
    ∃ ev : AuditEvent, (processOne env st l).2.audit = st.audit ++ [ev] ∧
      ((ev.event_type == "lead_imported")
        = (l.consent_given && l.tcpa_compliant && (env.storeErr l.lead_id).isNone)) := by
  cases hc : l.consent_given <;> cases ht : l.tcpa_compliant
  · exact ⟨⟨"lead_rejected", l.lead_id, .rejectedReason "missing_consent"⟩,
      by simp [processOne, hc, ht], by simp [hc]⟩
  · exact ⟨⟨"lead_rejected", l.lead_id, .rejectedReason "missing_consent"⟩,
      by simp [processOne, hc, ht], by simp [hc]⟩
  · exact ⟨⟨"lead_rejected", l.lead_id, .rejectedReason "missing_consent"⟩,
      by simp [processOne, hc, ht], by simp [hc, ht]⟩
  · rcases hs : env.storeErr l.lead_id with _ | err
    · exact ⟨⟨"lead_imported", l.lead_id, .imported l.source l.coverage_type true⟩,
        by simp [processOne, hc, ht, hs], by simp [hc, ht, hs]⟩
    · exact ⟨⟨"lead_import_failed", l.lead_id, .failed err⟩,
        by simp [processOne, hc, ht, hs], by simp [hc, ht, hs]⟩

theorem processLeads_count_filter (env : RunEnv) :
    ∀ (leads : List InsuranceLead) (st : PipeState),
    (processLeads env st leads).1
      = (leads.filter fun l =>
          l.consent_given && l.tcpa_compliant && (env.storeErr l.lead_id).isNone).length := by
  intro leads
  induction leads with
  | nil => intro st; rfl
  | cons l ls ih =>
      intro st
      simp only [processLeads]
      rw [processOne_count, ih, List.filter_cons]
      cases hP : (l.consent_given && l.tcpa_compliant && (env.storeErr l.lead_id).isNone) <;>
        simp [hP]
      omega

theorem processLeads_audit_delta (env : RunEnv) :
    ∀ (leads : List InsuranceLead) (st : PipeState),
    ∃ evs, (processLeads env st leads).2.audit = st.audit ++ evs ∧
      (processLeads env st leads).1
        = (evs.filter fun e => e.event_type == "lead_imported").length := by
  intro leads
  induction leads with
  | nil => intro st; exact ⟨[], by simp [processLeads], by simp [processLeads]⟩
  | cons l ls ih =>
      intro st
      obtain ⟨ev, hev, hty⟩ := processOne_audit env st l
      obtain ⟨evs, hevs, hcount⟩ := ih (processOne env st l).2
      refine ⟨ev :: evs, ?_, ?_⟩
      · simp only [processLeads]
        rw [hevs, hev, List.append_assoc]
        rfl
      · simp only [processLeads, List.filter_cons]
        rw [processOne_count, ← hty, hcount]
        cases hb : (ev.event_type == "lead_imported") <;> simp [hb]
        omega

/-- C10: the count `process_leads` returns is between 0 and the batch
length, equals the number of records admitted by the consent gate
whose primary-store write did not raise — which is the number of
`lead_imported` audit entries written during the call — and an empty
batch returns 0 and writes no audit entries. -/
theorem processed_count_characterization (env : RunEnv) (st : PipeState)
    (leads : List InsuranceLead) :
    (processLeads env st leads).1 ≤ leads.length ∧
    (processLeads env st leads).1
      = (leads.filter fun l =>
          l.consent_given && l.tcpa_compliant && (env.storeErr l.lead_id).isNone).length ∧
    (∃ evs, (processLeads env st leads).2.audit = st.audit ++ evs ∧
      (processLeads env st leads).1
        = (evs.filter fun e => e.event_type == "lead_imported").length) ∧
    processLeads env st [] = (0, st) := by
  refine ⟨?_, processLeads_count_filter env leads st, processLeads_audit_delta env leads st, rfl⟩
  rw [processLeads_count_filter env leads st]
  exact List.length_filter_le _ _
